import Mathlib

/-!
Verification of the investing-analysis portfolio aggregation core.

The definitions below are a shallow embedding of the repository's
aggregation logic:

* `Tx`, `TransactionType` — the `Asset` transaction record
  (src/app/assets/page.tsx, src/app/page.tsx).
* `runGroups` — the generic "iterate over transactions, keep one entry
  per asset name in a JS `Map`" loop shared by the portfolio and
  dashboard views (a JS `Map` preserves insertion order; updating an
  existing key updates it in place, a new key is appended).
* `initEntry` / `applyTx` / `toGrouped` — the `groupedPortfolios` memo
  of src/app/assets/page.tsx.
* `detailSummary` — the per-asset summary of the asset detail page.
* `holdings` — the dashboard holdings list of src/app/page.tsx.
* `portfolioSummary` / `dashSummary` — the account-level roll-ups of
  src/app/assets/page.tsx and of the dashboard page.
* `calcProfitLoss` / `tempProfit` — the trade P&L calculator of the
  trading-history page, with JavaScript IEEE-754 special values
  (`Infinity`, `NaN`) modelled explicitly by `JsNum` so that the
  `Number.isFinite` guard is faithful.
* `parseReferenceImages` / `parseImageReferences` — the stored-list
  field mappers of src/lib/models/tradingHistory.ts and stratery.ts.

`Date.parse` and `JSON.parse` are platform builtins, not repository
code; they are abstracted as function parameters (`dp`, `jparse`): a
`none` result models `NaN` / a thrown parse error.  Machine numbers are
modelled as exact rationals.
-/

namespace Investing

inductive TransactionType where
  | buy
  | sell
deriving DecidableEq

/-- The `Asset` record of the pages (one buy/sell transaction row). -/
structure Tx where
  id : Int
  name : String
  quantity : ℚ
  pricePerCoin : ℚ
  type : TransactionType
  date : Option String
  notes : Option String
deriving DecidableEq

/-- Signed quantity contribution of a transaction: `+quantity` for a buy,
`-quantity` for a sell. -/
def signedQty (tx : Tx) : ℚ :=
  if tx.type = TransactionType.buy then tx.quantity else -tx.quantity

/-- Quantity contribution of a buy transaction (0 for a sell). -/
def buyQty (tx : Tx) : ℚ :=
  if tx.type = TransactionType.buy then tx.quantity else 0

/-- Cost contribution (`quantity * pricePerCoin`) of a buy transaction. -/
def buyCost (tx : Tx) : ℚ :=
  if tx.type = TransactionType.buy then tx.quantity * tx.pricePerCoin else 0

/-! ### Generic per-name grouping loop (JS `Map` keyed by `tx.name`) -/

/-- Replace the first entry whose name is `key` by its image under `f`
(the JS loop mutates the entry object obtained from `map.get`). -/
def updateFirst {E : Type} (nm : E → String) (key : String) (f : E → E) :
    List E → List E
  | [] => []
  | e :: r => if nm e = key then f e :: r else e :: updateFirst nm key f r

/-- One iteration of the grouping loop: update the existing entry for
`tx.name`, or append a fresh one. -/
def stepG {E : Type} (nm : E → String) (init : Tx → E) (upd : Tx → E → E)
    (m : List E) (tx : Tx) : List E :=
  match m.find? (fun e => nm e == tx.name) with
  | some _ => updateFirst nm tx.name (upd tx) m
  | none => m ++ [init tx]

/-- The grouping loop over the whole transaction list, starting from an
empty map. -/
def runGroups {E : Type} (nm : E → String) (init : Tx → E) (upd : Tx → E → E)
    (txs : List Tx) : List E :=
  txs.foldl (stepG nm init upd) []

/-- The entry a single name's transactions fold to: `init` on the first,
`upd` on the rest. -/
def groupFold {E : Type} (init : Tx → E) (upd : Tx → E → E) :
    List Tx → Option E
  | [] => none
  | t :: r => some (r.foldl (fun e tx => upd tx e) (init t))

/-- Lookup of one asset's entry in the loop's final map. -/
def findGroup {E : Type} (nm : E → String) (init : Tx → E) (upd : Tx → E → E)
    (txs : List Tx) (name : String) : Option E :=
  (runGroups nm init upd txs).find? (fun e => nm e == name)

theorem find?_updateFirst_ne {E : Type} (nm : E → String) (key : String)
    (f : E → E) (hf : ∀ e, nm (f e) = nm e) (name : String) (hne : name ≠ key) :
    ∀ m : List E,
      (updateFirst nm key f m).find? (fun e => nm e == name) =
        m.find? (fun e => nm e == name) := by
  intro m
  induction m with
  | nil => rfl
  | cons e r ih =>
    by_cases hk : nm e = key
    · simp only [updateFirst, if_pos hk]
      have hkn : key ≠ name := hne.symm
      have h1 : (nm (f e) == name) = false := by simp [hf e, hk, hkn]
      have h2 : (nm e == name) = false := by simp [hk, hkn]
      simp [List.find?, h1, h2]
    · simp only [updateFirst, if_neg hk]
      by_cases hn : nm e = name
      · simp [List.find?, hn]
      · have h2 : (nm e == name) = false := by simp [hn]
        simp [List.find?, h2, ih]

theorem find?_updateFirst_eq {E : Type} (nm : E → String) (key : String)
    (f : E → E) (hf : ∀ e, nm (f e) = nm e) :
    ∀ (m : List E) (e : E),
      m.find? (fun x => nm x == key) = some e →
      (updateFirst nm key f m).find? (fun x => nm x == key) = some (f e) := by
  intro m
  induction m with
  | nil => intro e h; simp [List.find?] at h
  | cons x r ih =>
    intro e h
    by_cases hk : nm x = key
    · have hx : (nm x == key) = true := by simp [hk]
      rw [List.find?] at h
      rw [hx] at h
      simp only [Option.some.injEq] at h
      subst h
      simp only [updateFirst, if_pos hk]
      have hfx : (nm (f x) == key) = true := by simp [hf x, hk]
      simp [List.find?, hfx]
    · have hx : (nm x == key) = false := by simp [hk]
      rw [List.find?] at h
      rw [hx] at h
      simp only [updateFirst, if_neg hk]
      rw [List.find?, hx]
      exact ih e h

theorem find?_append_single {E : Type} (p : E → Bool) (x : E) :
    ∀ m : List E,
      (m ++ [x]).find? p =
        (match m.find? p with
         | some e => some e
         | none => if p x then some x else none) := by
  intro m
  induction m with
  | nil => cases hx : p x <;> simp [List.find?, hx]
  | cons y r ih =>
    cases hy : p y <;> simp [List.find?, hy, ih]

/-- The central decomposition: after folding the grouping loop over
`txs` from accumulator `m`, the entry found for `name` is obtained by
folding just the `name`-filtered transactions, starting from whatever
`m` already held for `name`. -/
theorem find?_foldl_stepG {E : Type} (nm : E → String) (init : Tx → E)
    (upd : Tx → E → E) (hinit : ∀ tx, nm (init tx) = tx.name)
    (hupd : ∀ tx e, nm (upd tx e) = nm e) (name : String) :
    ∀ (txs : List Tx) (m : List E),
      (txs.foldl (stepG nm init upd) m).find? (fun e => nm e == name) =
        (match m.find? (fun e => nm e == name) with
         | none => groupFold init upd (txs.filter (fun tx => tx.name == name))
         | some e =>
             some ((txs.filter (fun tx => tx.name == name)).foldl
               (fun e tx => upd tx e) e)) := by
  intro txs
  induction txs with
  | nil =>
    intro m
    cases hm : m.find? (fun e => nm e == name) <;>
      simp [List.foldl, groupFold, hm]
  | cons tx rest ih =>
    intro m
    rw [List.foldl_cons, ih (stepG nm init upd m tx)]
    by_cases hname : tx.name = name
    · subst hname
      have hfil : (tx :: rest).filter (fun t => t.name == tx.name) =
          tx :: rest.filter (fun t => t.name == tx.name) := by
        simp [List.filter]
      rw [hfil]
      cases hm : m.find? (fun e => nm e == tx.name) with
      | none =>
        have hstep : stepG nm init upd m tx = m ++ [init tx] := by
          simp [stepG, hm]
        rw [hstep, find?_append_single]
        rw [hm]
        have hpx : (nm (init tx) == tx.name) = true := by simp [hinit tx]
        simp only [hpx, if_true]
        simp [groupFold]
      | some e =>
        have hstep : stepG nm init upd m tx =
            updateFirst nm tx.name (upd tx) m := by
          simp [stepG, hm]
        rw [hstep, find?_updateFirst_eq nm tx.name (upd tx) (hupd tx) m e hm]
        simp [List.foldl_cons]
    · have hb : (tx.name == name) = false := by simp [hname]
      have hfil : (tx :: rest).filter (fun t => t.name == name) =
          rest.filter (fun t => t.name == name) := by
        simp [List.filter, hb]
      rw [hfil]
      have hsame : (stepG nm init upd m tx).find? (fun e => nm e == name) =
          m.find? (fun e => nm e == name) := by
        cases hm : m.find? (fun e => nm e == tx.name) with
        | none =>
          have hstep : stepG nm init upd m tx = m ++ [init tx] := by
            simp [stepG, hm]
          rw [hstep, find?_append_single]
          have hpx : (nm (init tx) == name) = false := by
            simp [hinit tx, hname]
          simp only [hpx, if_false]
          cases m.find? (fun e => nm e == name) <;> rfl
        | some e =>
          have hstep : stepG nm init upd m tx =
              updateFirst nm tx.name (upd tx) m := by
            simp [stepG, hm]
          rw [hstep]
          exact find?_updateFirst_ne nm tx.name (upd tx) (hupd tx) name
            (fun h => hname h.symm) m
      rw [hsame]

/-- Specialisation to the empty initial map: the per-name entry of the
whole loop is the fold of just that name's transactions. -/
theorem findGroup_eq {E : Type} (nm : E → String) (init : Tx → E)
    (upd : Tx → E → E) (hinit : ∀ tx, nm (init tx) = tx.name)
    (hupd : ∀ tx e, nm (upd tx e) = nm e) (txs : List Tx) (name : String) :
    findGroup nm init upd txs name =
      groupFold init upd (txs.filter (fun tx => tx.name == name)) := by
  unfold findGroup runGroups
  rw [find?_foldl_stepG nm init upd hinit hupd name txs []]
  simp [List.find?]

/-! ### The portfolio view (`groupedPortfolios` of src/app/assets/page.tsx) -/

/-- The per-asset accumulator object of the `groupedPortfolios` loop. -/
structure Entry where
  name : String
  latestTransaction : Tx
  totalBuyQty : ℚ
  totalBuyCost : ℚ
  netQty : ℚ
deriving DecidableEq

/-- Initial entry for the first transaction of a new asset name. -/
def initEntry (tx : Tx) : Entry where
  name := tx.name
  latestTransaction := tx
  totalBuyQty := if tx.type = TransactionType.buy then tx.quantity else 0
  totalBuyCost :=
    if tx.type = TransactionType.buy then tx.quantity * tx.pricePerCoin else 0
  netQty :=
    if tx.type = TransactionType.buy then tx.quantity else -tx.quantity

/-- The latest-transaction replacement test of the loop.  `existingTime`
and `txTime` are the `Date.parse` results of the two dates (`none`
models `NaN`); the incoming transaction replaces the tracked one when
the tracked date is unparseable, or the incoming date is parseable and
strictly later, or the two parsed dates are equal and the incoming id
is greater. -/
def replaceLatest (existingTime txTime : Option Int) (txId exId : Int) : Bool :=
  match existingTime with
  | none => true
  | some et =>
    match txTime with
    | none => false
    | some tt => tt > et || (tt == et && txId > exId)

/-- One loop iteration on an existing entry: accumulate buy totals and
net quantity, then update the tracked latest transaction.  `dp` models
`Date.parse` (on `tx.date ?? ""`). -/
def applyTx (dp : String → Option Int) (tx : Tx) (e : Entry) : Entry :=
  let updated :=
    if tx.type = TransactionType.buy then
      { e with
          totalBuyQty := e.totalBuyQty + tx.quantity
          totalBuyCost := e.totalBuyCost + tx.quantity * tx.pricePerCoin
          netQty := e.netQty + tx.quantity }
    else { e with netQty := e.netQty - tx.quantity }
  if replaceLatest (dp (e.latestTransaction.date.getD ""))
      (dp (tx.date.getD "")) tx.id e.latestTransaction.id then
    { updated with latestTransaction := tx }
  else updated

/-- The row of the portfolio table derived from one entry. -/
structure GroupedPortfolio where
  name : String
  currentPrice : ℚ
  holdingsQuantity : ℚ
  holdingsValue : ℚ
  avgBuyPrice : Option ℚ
  profitValue : Option ℚ
  profitPercent : Option ℚ
deriving DecidableEq

/-- The mapping of a finished entry to a `GroupedPortfolio` row
(the `.map` over `map.values()` in `groupedPortfolios`); `txs` is the
full transaction list, re-scanned for the asset's sell transactions. -/
def toGrouped (txs : List Tx) (e : Entry) : GroupedPortfolio :=
  let avgBuyPrice : Option ℚ :=
    if 0 < e.totalBuyQty then some (e.totalBuyCost / e.totalBuyQty) else none
  let currentPrice := e.latestTransaction.pricePerCoin
  let holdingsValue := e.netQty * currentPrice
  let sellTransactions := txs.filter
    (fun t => t.name == e.name && decide (t.type = TransactionType.sell))
  let totalSellQuantity :=
    sellTransactions.foldl (fun sum t => sum + t.quantity) 0
  let profitValue : Option ℚ :=
    match avgBuyPrice with
    | some avg =>
      if 0 < avg ∧ 0 < totalSellQuantity then
        some (sellTransactions.foldl
          (fun sum t => sum + (t.pricePerCoin - avg) * t.quantity) 0)
      else none
    | none => none
  let profitPercent : Option ℚ :=
    match profitValue, avgBuyPrice with
    | some pv, some avg =>
      if 0 < avg ∧ 0 < totalSellQuantity then
        some (pv / (avg * totalSellQuantity) * 100)
      else none
    | _, _ => none
  { name := e.name
    currentPrice := currentPrice
    holdingsQuantity := e.netQty
    holdingsValue := holdingsValue
    avgBuyPrice := avgBuyPrice
    profitValue := profitValue
    profitPercent := profitPercent }

/-- The per-asset entry produced by the `groupedPortfolios` loop for a
given asset name. -/
def assetEntry (dp : String → Option Int) (txs : List Tx) (name : String) :
    Option Entry :=
  findGroup Entry.name initEntry (applyTx dp) txs name

/-- The portfolio rows, one per distinct asset name, sorted by holdings
value descending (stable, as the JS comparator `b.holdingsValue -
a.holdingsValue` under a stable `Array.prototype.sort`). -/
def groupedPortfolios (dp : String → Option Int) (txs : List Tx) :
    List GroupedPortfolio :=
  ((runGroups Entry.name initEntry (applyTx dp) txs).map (toGrouped txs)).mergeSort
    (fun a b => b.holdingsValue ≤ a.holdingsValue)

theorem applyTx_name (dp : String → Option Int) (tx : Tx) (e : Entry) :
    (applyTx dp tx e).name = e.name := by
  unfold applyTx
  by_cases h : tx.type = TransactionType.buy <;>
    by_cases hr : replaceLatest (dp (e.latestTransaction.date.getD ""))
      (dp (tx.date.getD "")) tx.id e.latestTransaction.id <;>
    simp [h, hr]

theorem assetEntry_eq_groupFold (dp : String → Option Int) (txs : List Tx)
    (name : String) :
    assetEntry dp txs name =
      groupFold initEntry (applyTx dp)
        (txs.filter (fun tx => tx.name == name)) :=
  findGroup_eq Entry.name initEntry (applyTx dp) (fun _ => rfl)
    (fun tx e => applyTx_name dp tx e) txs name

theorem applyTx_netQty (dp : String → Option Int) (tx : Tx) (e : Entry) :
    (applyTx dp tx e).netQty = e.netQty + signedQty tx := by
  unfold applyTx signedQty
  by_cases h : tx.type = TransactionType.buy <;>
    by_cases hr : replaceLatest (dp (e.latestTransaction.date.getD ""))
      (dp (tx.date.getD "")) tx.id e.latestTransaction.id <;>
    simp [h, hr, sub_eq_add_neg]

theorem applyTx_totalBuyQty (dp : String → Option Int) (tx : Tx) (e : Entry) :
    (applyTx dp tx e).totalBuyQty = e.totalBuyQty + buyQty tx := by
  unfold applyTx buyQty
  by_cases h : tx.type = TransactionType.buy <;>
    by_cases hr : replaceLatest (dp (e.latestTransaction.date.getD ""))
      (dp (tx.date.getD "")) tx.id e.latestTransaction.id <;>
    simp [h, hr]

theorem applyTx_totalBuyCost (dp : String → Option Int) (tx : Tx) (e : Entry) :
    (applyTx dp tx e).totalBuyCost = e.totalBuyCost + buyCost tx := by
  unfold applyTx buyCost
  by_cases h : tx.type = TransactionType.buy <;>
    by_cases hr : replaceLatest (dp (e.latestTransaction.date.getD ""))
      (dp (tx.date.getD "")) tx.id e.latestTransaction.id <;>
    simp [h, hr]

theorem foldl_applyTx_fields (dp : String → Option Int) :
    ∀ (l : List Tx) (e : Entry),
      (l.foldl (fun e tx => applyTx dp tx e) e).netQty =
          e.netQty + (l.map signedQty).sum ∧
      (l.foldl (fun e tx => applyTx dp tx e) e).totalBuyQty =
          e.totalBuyQty + (l.map buyQty).sum ∧
      (l.foldl (fun e tx => applyTx dp tx e) e).totalBuyCost =
          e.totalBuyCost + (l.map buyCost).sum := by
  intro l
  induction l with
  | nil => intro e; simp
  | cons tx r ih =>
    intro e
    rw [List.foldl_cons]
    obtain ⟨h1, h2, h3⟩ := ih (applyTx dp tx e)
    refine ⟨?_, ?_, ?_⟩
    · rw [h1, applyTx_netQty]; simp [add_assoc]
    · rw [h2, applyTx_totalBuyQty]; simp [add_assoc]
    · rw [h3, applyTx_totalBuyCost]; simp [add_assoc]

/-- Totals of the entry a name's transactions fold to. -/
theorem groupFold_entry_fields (dp : String → Option Int) (l : List Tx)
    (g : Entry) (h : groupFold initEntry (applyTx dp) l = some g) :
    g.netQty = (l.map signedQty).sum ∧
    g.totalBuyQty = (l.map buyQty).sum ∧
    g.totalBuyCost = (l.map buyCost).sum := by
  cases l with
  | nil => simp [groupFold] at h
  | cons t r =>
    simp only [groupFold, Option.some.injEq] at h
    subst h
    obtain ⟨h1, h2, h3⟩ := foldl_applyTx_fields dp r (initEntry t)
    have e1 : (initEntry t).netQty = signedQty t := rfl
    have e2 : (initEntry t).totalBuyQty = buyQty t := rfl
    have e3 : (initEntry t).totalBuyCost = buyCost t := rfl
    refine ⟨?_, ?_, ?_⟩
    · rw [h1, e1]; simp
    · rw [h2, e2]; simp
    · rw [h3, e3]; simp

/-! ### Sum helpers -/

theorem foldl_add_map {α : Type} (f : α → ℚ) :
    ∀ (l : List α) (a : ℚ),
      l.foldl (fun sum x => sum + f x) a = a + (l.map f).sum := by
  intro l
  induction l with
  | nil => intro a; simp
  | cons x r ih => intro a; rw [List.foldl_cons, ih]; simp [add_assoc]

theorem map_signedQty_sum_split :
    ∀ l : List Tx,
      (l.map signedQty).sum =
        ((l.filter (fun t => decide (t.type = TransactionType.buy))).map
          Tx.quantity).sum -
        ((l.filter (fun t => decide (t.type = TransactionType.sell))).map
          Tx.quantity).sum := by
  intro l
  induction l with
  | nil => simp
  | cons t r ih =>
    cases ht : t.type with
    | buy =>
      have hsg : signedQty t = t.quantity := by simp [signedQty, ht]
      have hfb : (t :: r).filter
          (fun x => decide (x.type = TransactionType.buy)) =
          t :: r.filter (fun x => decide (x.type = TransactionType.buy)) := by
        simp [List.filter_cons, ht]
      have hfs : (t :: r).filter
          (fun x => decide (x.type = TransactionType.sell)) =
          r.filter (fun x => decide (x.type = TransactionType.sell)) := by
        simp [List.filter_cons, ht]
      rw [List.map_cons, List.sum_cons, hsg, ih, hfb, hfs, List.map_cons,
        List.sum_cons]
      ring
    | sell =>
      have hsg : signedQty t = -t.quantity := by simp [signedQty, ht]
      have hfb : (t :: r).filter
          (fun x => decide (x.type = TransactionType.buy)) =
          r.filter (fun x => decide (x.type = TransactionType.buy)) := by
        simp [List.filter_cons, ht]
      have hfs : (t :: r).filter
          (fun x => decide (x.type = TransactionType.sell)) =
          t :: r.filter (fun x => decide (x.type = TransactionType.sell)) := by
        simp [List.filter_cons, ht]
      rw [List.map_cons, List.sum_cons, hsg, ih, hfb, hfs, List.map_cons,
        List.sum_cons]
      ring

theorem filter_name_and (txs : List Tx) (name : String) (p : Tx → Bool) :
    txs.filter (fun t => t.name == name && p t) =
      (txs.filter (fun t => t.name == name)).filter p := by
  induction txs with
  | nil => rfl
  | cons t r ih =>
    cases hn : (t.name == name) <;> cases hp : p t <;>
      simp [List.filter_cons, hn, hp, ih]

/-! ### The asset detail view (`detailSummary` of the detail page) -/

/-- The summary record shown on the asset detail page. -/
structure DetailSummary where
  symbol : String
  totalValue : ℚ
  netQuantity : ℚ
  avgBuyPrice : Option ℚ
  totalProfit : ℚ
  totalProfitPercent : Option ℚ
deriving DecidableEq

/-- The `detailSummary` memo of the asset detail page, computed from the
asset's transaction list (`detailTransactions`: the transactions of
`detailName`, in display order — the totals below are order-independent
folds, only `currentPrice` reads the list head). -/
def detailSummary (detailName : String) (transactions : List Tx) :
    DetailSummary :=
  let buys := transactions.filter
    (fun t => decide (t.type = TransactionType.buy))
  let sells := transactions.filter
    (fun t => decide (t.type = TransactionType.sell))
  let totalBuyQty := buys.foldl (fun sum t => sum + t.quantity) 0
  let totalBuyCost :=
    buys.foldl (fun sum t => sum + t.quantity * t.pricePerCoin) 0
  let soldQty := sells.foldl (fun sum t => sum + t.quantity) 0
  let avgBuyPrice : Option ℚ :=
    if 0 < totalBuyQty then some (totalBuyCost / totalBuyQty) else none
  let netQuantity := transactions.foldl
    (fun sum t =>
      sum + (if t.type = TransactionType.buy then t.quantity else -t.quantity))
    0
  let currentPrice := ((transactions.head?).map Tx.pricePerCoin).getD 0
  let totalValue := netQuantity * currentPrice
  let totalProfit : ℚ :=
    match avgBuyPrice with
    | some avg =>
      if 0 < avg then
        sells.foldl (fun sum t => sum + (t.pricePerCoin - avg) * t.quantity) 0
      else 0
    | none => 0
  let totalProfitPercent : Option ℚ :=
    match avgBuyPrice with
    | some avg =>
      if 0 < avg ∧ 0 < soldQty then
        some (totalProfit / (avg * soldQty) * 100)
      else none
    | none => none
  { symbol := detailName.toUpper
    totalValue := totalValue
    netQuantity := netQuantity
    avgBuyPrice := avgBuyPrice
    totalProfit := totalProfit
    totalProfitPercent := totalProfitPercent }

/-! ### The dashboard holdings list (`holdings` of src/app/page.tsx) -/

/-- The per-asset accumulator of the dashboard `holdings` loop. -/
structure HEntry where
  name : String
  quantity : ℚ
  buyQuantity : ℚ
  buyCost : ℚ
deriving DecidableEq

/-- The fresh zero entry used when a name is not yet in the map. -/
def emptyHEntry (name : String) : HEntry where
  name := name
  quantity := 0
  buyQuantity := 0
  buyCost := 0

/-- One iteration of the `holdings` loop on an entry. -/
def applyHoldingTx (tx : Tx) (e : HEntry) : HEntry :=
  if tx.type = TransactionType.buy then
    { e with
        quantity := e.quantity + tx.quantity
        buyQuantity := e.buyQuantity + tx.quantity
        buyCost := e.buyCost + tx.quantity * tx.pricePerCoin }
  else { e with quantity := e.quantity - tx.quantity }

/-- A row of the dashboard holdings list (drives the allocation chart). -/
structure Holding where
  id : Nat
  name : String
  quantity : ℚ
  avgBuyPrice : ℚ
deriving DecidableEq

/-- The `holdings` memo of the dashboard page: group by name, keep the
entries with strictly positive net quantity, and number them. -/
def holdings (txs : List Tx) : List Holding :=
  let entries := runGroups HEntry.name
    (fun tx => applyHoldingTx tx (emptyHEntry tx.name)) applyHoldingTx txs
  ((entries.filter (fun e => decide (0 < e.quantity))).enum).map
    (fun (p : Nat × HEntry) =>
      { id := p.1 + 1
        name := p.2.name
        quantity := p.2.quantity
        avgBuyPrice :=
          if 0 < p.2.buyQuantity then p.2.buyCost / p.2.buyQuantity else 0 })

/-! ### The account-level roll-up (`portfolioSummary` of the assets page) -/

/-- The summary record of the assets page. -/
structure PortfolioSummary where
  firstCapital : ℚ
  totalProfit : ℚ
  allTimeProfitPercent : Option ℚ
  totalUsdt : ℚ
  remainUsdt : ℚ
  totalUsdtPercent : Option ℚ
  remainUsdtPercent : Option ℚ
deriving DecidableEq

/-- A row of the dashboard page's grouped portfolios (part_003):
cost-basis holdings value and optional realized profit. -/
structure DashPortfolio where
  name : String
  currentCost : ℚ
  profitValue : Option ℚ
deriving DecidableEq

/-- The summary record of the dashboard page (part_003). -/
structure DashSummary where
  firstCapital : ℚ
  remainUsdt : ℚ
  totalProfit : ℚ
  totalLoss : ℚ
  totalProfitNet : ℚ
deriving DecidableEq

/-- The `summary` memo of the dashboard page (part_003): per-asset
profits floored at zero (losses collected separately), and remaining
capital as the initial capital minus the floored cost-basis holdings —
no USDT-equivalent and no profit term in the remaining capital. -/
def dashSummary (items : List DashPortfolio) : DashSummary :=
  let firstCapital : ℚ := 2000
  let totalProfitNet :=
    items.foldl (fun sum item => sum + (item.profitValue.getD 0)) 0
  let totalProfit :=
    items.foldl (fun sum item => sum + max (item.profitValue.getD 0) 0) 0
  let totalLoss :=
    items.foldl (fun sum item => sum + min (item.profitValue.getD 0) 0) 0
  let holdingUsdt :=
    items.foldl (fun sum item => sum + max item.currentCost 0) 0
  let remainUsdt := firstCapital - holdingUsdt
  { firstCapital := firstCapital
    remainUsdt := remainUsdt
    totalProfit := totalProfit
    totalLoss := totalLoss
    totalProfitNet := totalProfitNet }

/-- The `portfolioSummary` memo: account totals over the portfolio rows
against the fixed initial capital of 2000. -/
def portfolioSummary (items : List GroupedPortfolio) : PortfolioSummary :=
  let firstCapital : ℚ := 2000
  let totalProfit :=
    items.foldl (fun sum item => sum + (item.profitValue.getD 0)) 0
  let allTimeProfitPercent : Option ℚ :=
    if 0 < firstCapital then some (totalProfit / firstCapital * 100) else none
  let totalUsdt := firstCapital + totalProfit
  let holdingUsdt :=
    items.foldl (fun sum item => sum + max item.holdingsValue 0) 0
  let remainUsdt := totalUsdt - holdingUsdt
  let totalUsdtPercent : Option ℚ :=
    if 0 < firstCapital then some (totalUsdt / firstCapital * 100) else none
  let remainUsdtPercent : Option ℚ :=
    if totalUsdt ≠ 0 then some (remainUsdt / totalUsdt * 100) else none
  { firstCapital := firstCapital
    totalProfit := totalProfit
    allTimeProfitPercent := allTimeProfitPercent
    totalUsdt := totalUsdt
    remainUsdt := remainUsdt
    totalUsdtPercent := totalUsdtPercent
    remainUsdtPercent := remainUsdtPercent }

/-! ### JavaScript numbers for the P&L calculator

The calculator divides by `openPrice` and guards the result with
`Number.isFinite`, so the IEEE-754 special values matter.  `JsNum`
models a JavaScript number as an exact rational, `Infinity`,
`-Infinity` or `NaN`, with the operations the calculator uses. -/

inductive JsNum where
  | fin : ℚ → JsNum
  | posInf
  | negInf
  | nan
deriving DecidableEq

def jsSub : JsNum → JsNum → JsNum
  | JsNum.nan, _ => JsNum.nan
  | _, JsNum.nan => JsNum.nan
  | JsNum.fin a, JsNum.fin b => JsNum.fin (a - b)
  | JsNum.fin _, JsNum.posInf => JsNum.negInf
  | JsNum.fin _, JsNum.negInf => JsNum.posInf
  | JsNum.posInf, JsNum.fin _ => JsNum.posInf
  | JsNum.negInf, JsNum.fin _ => JsNum.negInf
  | JsNum.posInf, JsNum.posInf => JsNum.nan
  | JsNum.posInf, JsNum.negInf => JsNum.posInf
  | JsNum.negInf, JsNum.posInf => JsNum.negInf
  | JsNum.negInf, JsNum.negInf => JsNum.nan

def jsMul : JsNum → JsNum → JsNum
  | JsNum.nan, _ => JsNum.nan
  | _, JsNum.nan => JsNum.nan
  | JsNum.fin a, JsNum.fin b => JsNum.fin (a * b)
  | JsNum.fin a, JsNum.posInf =>
    if a = 0 then JsNum.nan else if 0 < a then JsNum.posInf else JsNum.negInf
  | JsNum.fin a, JsNum.negInf =>
    if a = 0 then JsNum.nan else if 0 < a then JsNum.negInf else JsNum.posInf
  | JsNum.posInf, JsNum.fin b =>
    if b = 0 then JsNum.nan else if 0 < b then JsNum.posInf else JsNum.negInf
  | JsNum.negInf, JsNum.fin b =>
    if b = 0 then JsNum.nan else if 0 < b then JsNum.negInf else JsNum.posInf
  | JsNum.posInf, JsNum.posInf => JsNum.posInf
  | JsNum.posInf, JsNum.negInf => JsNum.negInf
  | JsNum.negInf, JsNum.posInf => JsNum.negInf
  | JsNum.negInf, JsNum.negInf => JsNum.posInf

def jsDiv : JsNum → JsNum → JsNum
  | JsNum.nan, _ => JsNum.nan
  | _, JsNum.nan => JsNum.nan
  | JsNum.fin a, JsNum.fin b =>
    if b = 0 then
      if a = 0 then JsNum.nan else if 0 < a then JsNum.posInf else JsNum.negInf
    else JsNum.fin (a / b)
  | JsNum.fin _, JsNum.posInf => JsNum.fin 0
  | JsNum.fin _, JsNum.negInf => JsNum.fin 0
  | JsNum.posInf, JsNum.fin b =>
    if 0 ≤ b then JsNum.posInf else JsNum.negInf
  | JsNum.negInf, JsNum.fin b =>
    if 0 ≤ b then JsNum.negInf else JsNum.posInf
  | JsNum.posInf, _ => JsNum.nan
  | JsNum.negInf, _ => JsNum.nan

/-! ### Logged trades and the P&L calculator (trading-history page) -/

inductive TradeType where
  | long
  | short
deriving DecidableEq

inductive OrderType where
  | scaping
  | swing
deriving DecidableEq

/-- The `TradingHistory` record (src/lib/models/tradingHistory.ts). -/
structure TradingHistory where
  id : Int
  name : String
  openDate : String
  closeDate : Option String
  openPrice : ℚ
  closePrice : Option ℚ
  notes : Option String
  source : Option String
  orderType : Option OrderType
  type : TradeType
  level : ℚ
  volume : ℚ
  strateryId : Option Int
  strateryName : Option String
  referenceImages : List String
deriving DecidableEq

/-- `calcProfitLoss` of the trading-history page: `null` for an open
trade; otherwise `volume * level * priceChangeRatio` guarded by
`Number.isFinite` (so a division by a zero `openPrice` yields `null`,
not an infinite or NaN number). -/
def calcProfitLoss (trade : TradingHistory) : Option ℚ :=
  match trade.closePrice with
  | none => none
  | some closePrice =>
    let priceChangeRatio :=
      match trade.type with
      | TradeType.short =>
        jsDiv (jsSub (JsNum.fin trade.openPrice) (JsNum.fin closePrice))
          (JsNum.fin trade.openPrice)
      | TradeType.long =>
        jsDiv (jsSub (JsNum.fin closePrice) (JsNum.fin trade.openPrice))
          (JsNum.fin trade.openPrice)
    let profit :=
      jsMul (jsMul (JsNum.fin trade.volume) (JsNum.fin trade.level))
        priceChangeRatio
    match profit with
    | JsNum.fin q => some q
    | _ => none

/-- The `tempProfit` what-if preview of the close dialog, as a function
of the open trade and the already-parsed provisional close price (the
dialog first rejects an empty or non-numeric input string). -/
def tempProfit (closeTrade : TradingHistory) (closePrice : ℚ) : Option ℚ :=
  let priceChangeRatio :=
    match closeTrade.type with
    | TradeType.short =>
      jsDiv (jsSub (JsNum.fin closeTrade.openPrice) (JsNum.fin closePrice))
        (JsNum.fin closeTrade.openPrice)
    | TradeType.long =>
      jsDiv (jsSub (JsNum.fin closePrice) (JsNum.fin closeTrade.openPrice))
        (JsNum.fin closeTrade.openPrice)
  let profit :=
    jsMul (jsMul (JsNum.fin closeTrade.volume) (JsNum.fin closeTrade.level))
      priceChangeRatio
  match profit with
  | JsNum.fin q => some q
  | _ => none

/-! ### Stored reference-image list parsing (row mappers)

`JsVal` models the JavaScript value held by the row field; `jparse`
models `JSON.parse` (`none` for a thrown syntax error) and `toStr`
models the `String(item)` conversion applied to array elements. -/

inductive JsVal where
  | vnull
  | vbool : Bool → JsVal
  | vnum : ℚ → JsVal
  | vstr : String → JsVal
  | varr : List JsVal → JsVal

/-- JavaScript truthiness test (`!value` is its negation): `null`,
`false`, `0` and `""` are falsy; every array is truthy. -/
def jsFalsy : JsVal → Bool
  | JsVal.vnull => true
  | JsVal.vbool b => !b
  | JsVal.vnum q => q == 0
  | JsVal.vstr s => s == ""
  | JsVal.varr _ => false

/-- Character-level model of `String.prototype.split` with a one-character
separator (JavaScript: splitting the empty string yields `[""]`, and a
trailing separator yields a trailing empty piece). -/
def splitOnChar (sep : Char) : List Char → List (List Char)
  | [] => [[]]
  | c :: rest =>
    match splitOnChar sep rest with
    | [] => [[]]
    | cur :: parts =>
      if c = sep then [] :: cur :: parts else (c :: cur) :: parts

/-- Character-level model of `String.prototype.trim`: strip leading and
trailing whitespace. -/
def trimChars (l : List Char) : List Char :=
  ((l.dropWhile Char.isWhitespace).reverse.dropWhile Char.isWhitespace).reverse

/-- The comma fallback `value.split(",").map(item => item.trim()).filter(Boolean)`
of the row mappers. -/
def commaSplitTrim (s : String) : List String :=
  ((splitOnChar ',' s.toList).map (fun cs => String.mk (trimChars cs))).filter
    (fun item => item ≠ "")

/-- `parseReferenceImages` of src/lib/models/tradingHistory.ts: an
already-array value is stringified element-wise; a string is tried as
JSON (an array result is stringified element-wise, any other parse
result falls through to `[]`), and on a parse error the string is split
on commas, trimmed, and empties dropped; everything else yields `[]`. -/
def parseReferenceImages (jparse : String → Option JsVal)
    (toStr : JsVal → String) (value : JsVal) : List String :=
  if jsFalsy value then []
  else
    match value with
    | JsVal.varr items => items.map toStr
    | JsVal.vstr s =>
      match jparse s with
      | some (JsVal.varr items) => items.map toStr
      | some _ => []
      | none => commaSplitTrim s
    | _ => []

/-- `parseImageReferences` of src/lib/models/stratery.ts (same logic as
`parseReferenceImages`). -/
def parseImageReferences (jparse : String → Option JsVal)
    (toStr : JsVal → String) (value : JsVal) : List String :=
  if jsFalsy value then []
  else
    match value with
    | JsVal.varr items => items.map toStr
    | JsVal.vstr s =>
      match jparse s with
      | some (JsVal.varr items) => items.map toStr
      | some _ => []
      | none => commaSplitTrim s
    | _ => []

/-! ### Distinct names in the grouped map, and membership lookup -/

theorem names_updateFirst {E : Type} (nm : E → String) (key : String)
    (f : E → E) (hf : ∀ e, nm (f e) = nm e) :
    ∀ m : List E, (updateFirst nm key f m).map nm = m.map nm := by
  intro m
  induction m with
  | nil => rfl
  | cons e r ih =>
    by_cases hk : nm e = key <;> simp [updateFirst, hk, hf, ih]

theorem nodup_names_foldl_stepG {E : Type} (nm : E → String) (init : Tx → E)
    (upd : Tx → E → E) (hinit : ∀ tx, nm (init tx) = tx.name)
    (hupd : ∀ tx e, nm (upd tx e) = nm e) :
    ∀ (txs : List Tx) (m : List E), (m.map nm).Nodup →
      ((txs.foldl (stepG nm init upd) m).map nm).Nodup := by
  intro txs
  induction txs with
  | nil => intro m hm; exact hm
  | cons tx rest ih =>
    intro m hm
    rw [List.foldl_cons]
    apply ih
    cases hfind : m.find? (fun e => nm e == tx.name) with
    | some e =>
      have hstep : stepG nm init upd m tx =
          updateFirst nm tx.name (upd tx) m := by simp [stepG, hfind]
      rw [hstep, names_updateFirst nm tx.name (upd tx) (hupd tx)]
      exact hm
    | none =>
      have hstep : stepG nm init upd m tx = m ++ [init tx] := by
        simp [stepG, hfind]
      rw [hstep, List.map_append]
      have hnot : tx.name ∉ m.map nm := by
        intro hmem
        obtain ⟨e, he, hname⟩ := List.mem_map.mp hmem
        have := List.find?_eq_none.mp hfind e he
        simp [hname] at this
      simp [List.nodup_append, hm, hinit tx]
      intro x hx hcontra
      exact hnot (hcontra ▸ List.mem_map_of_mem nm hx)

theorem find?_mem_nodup {E : Type} (nm : E → String) :
    ∀ (m : List E) (e : E), (m.map nm).Nodup → e ∈ m →
      m.find? (fun x => nm x == nm e) = some e := by
  intro m
  induction m with
  | nil => intro e _ he; cases he
  | cons x r ih =>
    intro e hnd he
    rw [List.map_cons, List.nodup_cons] at hnd
    cases List.mem_cons.mp he with
    | inl h =>
      subst h
      simp [List.find?]
    | inr h =>
      have hne : nm x ≠ nm e := by
        intro hcontra
        exact hnd.1 (hcontra ▸ List.mem_map_of_mem nm h)
      have hb : (nm x == nm e) = false := by simp [hne]
      rw [List.find?, hb]
      exact ih e hnd.2 h

/-- Every entry of the loop's final map is the fold of its own name's
transactions. -/
theorem mem_runGroups_groupFold {E : Type} (nm : E → String) (init : Tx → E)
    (upd : Tx → E → E) (hinit : ∀ tx, nm (init tx) = tx.name)
    (hupd : ∀ tx e, nm (upd tx e) = nm e) (txs : List Tx) (e : E)
    (he : e ∈ runGroups nm init upd txs) :
    groupFold init upd (txs.filter (fun tx => tx.name == nm e)) = some e := by
  have hnd : ((runGroups nm init upd txs).map nm).Nodup := by
    apply nodup_names_foldl_stepG nm init upd hinit hupd txs []
    simp
  have hfind := find?_mem_nodup nm (runGroups nm init upd txs) e hnd he
  have := findGroup_eq nm init upd hinit hupd txs (nm e)
  unfold findGroup at this
  rw [hfind] at this
  exact this.symm

/-! ### Entry / HEntry field characterisations -/

theorem assetEntry_name (dp : String → Option Int) (txs : List Tx)
    (name : String) (e : Entry) (h : assetEntry dp txs name = some e) :
    e.name = name := by
  unfold assetEntry findGroup at h
  have := List.find?_some h
  simpa using this

theorem applyHoldingTx_name (tx : Tx) (e : HEntry) :
    (applyHoldingTx tx e).name = e.name := by
  unfold applyHoldingTx
  by_cases h : tx.type = TransactionType.buy <;> simp [h]

theorem applyHoldingTx_quantity (tx : Tx) (e : HEntry) :
    (applyHoldingTx tx e).quantity = e.quantity + signedQty tx := by
  unfold applyHoldingTx signedQty
  by_cases h : tx.type = TransactionType.buy <;> simp [h, sub_eq_add_neg]

theorem foldl_applyHoldingTx_quantity :
    ∀ (l : List Tx) (e : HEntry),
      (l.foldl (fun e tx => applyHoldingTx tx e) e).quantity =
        e.quantity + (l.map signedQty).sum := by
  intro l
  induction l with
  | nil => intro e; simp
  | cons tx r ih =>
    intro e
    rw [List.foldl_cons, ih, applyHoldingTx_quantity]
    simp [add_assoc]

theorem groupFoldH_quantity (l : List Tx) (g : HEntry)
    (h : groupFold (fun tx => applyHoldingTx tx (emptyHEntry tx.name))
      applyHoldingTx l = some g) :
    g.quantity = (l.map signedQty).sum := by
  cases l with
  | nil => simp [groupFold] at h
  | cons t r =>
    simp only [groupFold, Option.some.injEq] at h
    subst h
    rw [foldl_applyHoldingTx_quantity, applyHoldingTx_quantity]
    simp [emptyHEntry]

/-! ### Buy-total sums -/

theorem map_buyQty_sum :
    ∀ l : List Tx,
      (l.map buyQty).sum =
        ((l.filter (fun t => decide (t.type = TransactionType.buy))).map
          Tx.quantity).sum := by
  intro l
  induction l with
  | nil => simp
  | cons t r ih =>
    by_cases ht : t.type = TransactionType.buy
    · have hfb : (t :: r).filter
          (fun x => decide (x.type = TransactionType.buy)) =
          t :: r.filter (fun x => decide (x.type = TransactionType.buy)) := by
        simp [List.filter_cons, ht]
      have hb : buyQty t = t.quantity := by simp [buyQty, ht]
      rw [List.map_cons, List.sum_cons, hb, ih, hfb, List.map_cons,
        List.sum_cons]
    · have hfb : (t :: r).filter
          (fun x => decide (x.type = TransactionType.buy)) =
          r.filter (fun x => decide (x.type = TransactionType.buy)) := by
        simp [List.filter_cons, ht]
      have hb : buyQty t = 0 := by simp [buyQty, ht]
      rw [List.map_cons, List.sum_cons, hb, ih, hfb, zero_add]

theorem map_buyCost_sum :
    ∀ l : List Tx,
      (l.map buyCost).sum =
        ((l.filter (fun t => decide (t.type = TransactionType.buy))).map
          (fun t => t.quantity * t.pricePerCoin)).sum := by
  intro l
  induction l with
  | nil => simp
  | cons t r ih =>
    by_cases ht : t.type = TransactionType.buy
    · have hfb : (t :: r).filter
          (fun x => decide (x.type = TransactionType.buy)) =
          t :: r.filter (fun x => decide (x.type = TransactionType.buy)) := by
        simp [List.filter_cons, ht]
      have hb : buyCost t = t.quantity * t.pricePerCoin := by
        simp [buyCost, ht]
      rw [List.map_cons, List.sum_cons, hb, ih, hfb, List.map_cons,
        List.sum_cons]
    · have hfb : (t :: r).filter
          (fun x => decide (x.type = TransactionType.buy)) =
          r.filter (fun x => decide (x.type = TransactionType.buy)) := by
        simp [List.filter_cons, ht]
      have hb : buyCost t = 0 := by simp [buyCost, ht]
      rw [List.map_cons, List.sum_cons, hb, ih, hfb, zero_add]

/-- For lists of transactions with positive quantities, the summed
quantity is positive exactly when the list is nonempty. -/
theorem sum_qty_pos_iff (l : List Tx) (hq : ∀ t ∈ l, 0 < t.quantity) :
    0 < (l.map Tx.quantity).sum ↔ l ≠ [] := by
  constructor
  · intro hpos hnil
    subst hnil
    simp at hpos
  · intro hne
    apply List.sum_pos
    · intro q hmem
      obtain ⟨t, ht, hqt⟩ := List.mem_map.mp hmem
      exact hqt ▸ hq t ht
    · intro hcontra
      exact hne (List.map_eq_nil_iff.mp hcontra)

/-! ### `toGrouped` characterisations -/

theorem toGrouped_avgBuyPrice (txs : List Tx) (e : Entry) :
    (toGrouped txs e).avgBuyPrice =
      if 0 < e.totalBuyQty then some (e.totalBuyCost / e.totalBuyQty)
      else none := rfl

theorem toGrouped_currentPrice (txs : List Tx) (e : Entry) :
    (toGrouped txs e).currentPrice = e.latestTransaction.pricePerCoin := rfl

theorem toGrouped_profitValue (txs : List Tx) (e : Entry) :
    (toGrouped txs e).profitValue =
      match (toGrouped txs e).avgBuyPrice with
      | some avg =>
        if 0 < avg ∧
            0 < ((txs.filter (fun t =>
                t.name == e.name && decide (t.type = TransactionType.sell))).map
              Tx.quantity).sum then
          some (((txs.filter (fun t =>
              t.name == e.name && decide (t.type = TransactionType.sell))).map
            (fun t => (t.pricePerCoin - avg) * t.quantity)).sum)
        else none
      | none => none := by
  have hqty : ∀ l : List Tx,
      l.foldl (fun sum t => sum + t.quantity) 0 = (l.map Tx.quantity).sum := by
    intro l
    rw [foldl_add_map Tx.quantity l 0, zero_add]
  have hpr : ∀ (l : List Tx) (avg : ℚ),
      l.foldl (fun sum t => sum + (t.pricePerCoin - avg) * t.quantity) 0 =
        (l.map (fun t => (t.pricePerCoin - avg) * t.quantity)).sum := by
    intro l avg
    rw [foldl_add_map (fun t => (t.pricePerCoin - avg) * t.quantity) l 0,
      zero_add]
  show (match (if 0 < e.totalBuyQty then
      some (e.totalBuyCost / e.totalBuyQty) else none : Option ℚ) with
    | some avg =>
      if 0 < avg ∧
          0 < ((txs.filter (fun (t : Tx) =>
              t.name == e.name && decide (t.type = TransactionType.sell))).foldl
            (fun (sum : ℚ) (t : Tx) => sum + t.quantity) 0) then
        some (((txs.filter (fun (t : Tx) =>
            t.name == e.name && decide (t.type = TransactionType.sell))).foldl
          (fun (sum : ℚ) (t : Tx) => sum + (t.pricePerCoin - avg) * t.quantity)
          0))
      else none
    | none => none) = _
  rw [hqty, toGrouped_avgBuyPrice]
  cases havg : (if 0 < e.totalBuyQty then
      some (e.totalBuyCost / e.totalBuyQty) else none : Option ℚ) with
  | none => rfl
  | some avg => simp only [hpr]

/-! ### Latest-transaction computations on two-element lists -/

theorem replaceLatest_none (txTime : Option Int) (txId exId : Int) :
    replaceLatest none txTime txId exId = true := rfl

theorem replaceLatest_some_none (et : Int) (txId exId : Int) :
    replaceLatest (some et) none txId exId = false := rfl

theorem replaceLatest_some_eq (t : Int) (txId exId : Int) :
    replaceLatest (some t) (some t) txId exId = decide (exId < txId) := by
  simp [replaceLatest]

theorem applyTx_latest (dp : String → Option Int) (tx : Tx) (e : Entry) :
    (applyTx dp tx e).latestTransaction =
      (if replaceLatest (dp (e.latestTransaction.date.getD ""))
          (dp (tx.date.getD "")) tx.id e.latestTransaction.id then
        tx
      else e.latestTransaction) := by
  unfold applyTx
  by_cases hb : tx.type = TransactionType.buy <;>
    by_cases hr : replaceLatest (dp (e.latestTransaction.date.getD ""))
      (dp (tx.date.getD "")) tx.id e.latestTransaction.id <;>
    simp [hb, hr]

/-- The grouped entry of a two-transaction list of one asset is the
second transaction applied to the first's initial entry. -/
theorem assetEntry_pair (dp : String → Option Int) (a b : Tx)
    (hname : b.name = a.name) :
    assetEntry dp [a, b] a.name = some (applyTx dp b (initEntry a)) := by
  unfold assetEntry findGroup runGroups
  rw [List.foldl_cons, List.foldl_cons, List.foldl_nil]
  have h1 : stepG Entry.name initEntry (applyTx dp) [] a = [initEntry a] := by
    simp [stepG, List.find?]
  rw [h1]
  have hb1 : (Entry.name (initEntry a) == b.name) = true := by
    simp [initEntry, hname]
  have h2 : stepG Entry.name initEntry (applyTx dp) [initEntry a] b =
      [applyTx dp b (initEntry a)] := by
    simp [stepG, List.find?, hb1, updateFirst, initEntry, hname]
  rw [h2]
  have hb2 : (Entry.name (applyTx dp b (initEntry a)) == a.name) = true := by
    simp [applyTx_name, initEntry]
  simp [List.find?, hb2]

theorem initEntry_latest (tx : Tx) : (initEntry tx).latestTransaction = tx :=
  rfl

/-! ### `detailSummary` characterisations -/

theorem detailSummary_avgBuyPrice (name : String) (l : List Tx) :
    (detailSummary name l).avgBuyPrice =
      (if 0 < ((l.filter (fun t => decide (t.type = TransactionType.buy))).map
          Tx.quantity).sum then
        some ((((l.filter (fun t =>
            decide (t.type = TransactionType.buy))).map
          (fun t => t.quantity * t.pricePerCoin)).sum) /
          (((l.filter (fun t => decide (t.type = TransactionType.buy))).map
            Tx.quantity).sum))
      else none) := by
  show (if 0 < ((l.filter (fun t =>
      decide (t.type = TransactionType.buy))).foldl
      (fun (sum : ℚ) (t : Tx) => sum + t.quantity) 0) then
    some (((l.filter (fun t => decide (t.type = TransactionType.buy))).foldl
        (fun (sum : ℚ) (t : Tx) => sum + t.quantity * t.pricePerCoin) 0) /
      ((l.filter (fun t => decide (t.type = TransactionType.buy))).foldl
        (fun (sum : ℚ) (t : Tx) => sum + t.quantity) 0))
    else none) = _
  simp only [foldl_add_map Tx.quantity,
    foldl_add_map (fun (t : Tx) => t.quantity * t.pricePerCoin), zero_add]

theorem detailSummary_netQuantity (name : String) (l : List Tx) :
    (detailSummary name l).netQuantity = (l.map signedQty).sum := by
  show l.foldl (fun (sum : ℚ) (t : Tx) => sum + signedQty t) 0 = _
  rw [foldl_add_map signedQty l 0, zero_add]

theorem detailSummary_totalProfit (name : String) (l : List Tx) :
    (detailSummary name l).totalProfit =
      (match (detailSummary name l).avgBuyPrice with
       | some avg =>
         if 0 < avg then
           ((l.filter (fun t => decide (t.type = TransactionType.sell))).map
             (fun t => (t.pricePerCoin - avg) * t.quantity)).sum
         else 0
       | none => 0) := by
  show (match (detailSummary name l).avgBuyPrice with
    | some avg =>
      if 0 < avg then
        (l.filter (fun (t : Tx) =>
            decide (t.type = TransactionType.sell))).foldl
          (fun (sum : ℚ) (t : Tx) => sum + (t.pricePerCoin - avg) * t.quantity)
          0
      else 0
    | none => (0 : ℚ)) = _
  cases havg : (detailSummary name l).avgBuyPrice with
  | none => rfl
  | some avg =>
    simp only [foldl_add_map (fun (t : Tx) => (t.pricePerCoin - avg) *
      t.quantity), zero_add]

/-! ### Claims -/

/-- C2: for every transaction list and asset name in it, the asset's
`averageBuyPrice` equals total buy cost over total buy quantity
accumulated from buy transactions only, and it is undefined exactly
when no buy transaction of that asset exists (given the boundary
invariant that every quantity is positive); the asset detail view
computes the same value. -/
theorem claim_avgBuyPrice (dp : String → Option Int) (txs : List Tx)
    (name : String) (e : Entry) (hq : ∀ tx ∈ txs, 0 < tx.quantity)
    (h : assetEntry dp txs name = some e) :
    ((toGrouped txs e).avgBuyPrice = none ↔
      txs.filter (fun t =>
        t.name == name && decide (t.type = TransactionType.buy)) = []) ∧
    (txs.filter (fun t =>
        t.name == name && decide (t.type = TransactionType.buy)) ≠ [] →
      (toGrouped txs e).avgBuyPrice =
        some ((((txs.filter (fun t =>
            t.name == name && decide (t.type = TransactionType.buy))).map
          (fun t => t.quantity * t.pricePerCoin)).sum) /
          (((txs.filter (fun t =>
            t.name == name && decide (t.type = TransactionType.buy))).map
            Tx.quantity).sum))) ∧
    (detailSummary name (txs.filter (fun t => t.name == name))).avgBuyPrice =
      (toGrouped txs e).avgBuyPrice := by
  have hname := assetEntry_name dp txs name e h
  rw [assetEntry_eq_groupFold] at h
  obtain ⟨hnet, hbq, hbc⟩ := groupFold_entry_fields dp _ e h
  have hbq' : e.totalBuyQty =
      ((txs.filter (fun t =>
        t.name == name && decide (t.type = TransactionType.buy))).map
        Tx.quantity).sum := by
    rw [hbq, map_buyQty_sum, ← filter_name_and]
  have hbc' : e.totalBuyCost =
      ((txs.filter (fun t =>
        t.name == name && decide (t.type = TransactionType.buy))).map
        (fun t => t.quantity * t.pricePerCoin)).sum := by
    rw [hbc, map_buyCost_sum, ← filter_name_and]
  have hpos : ∀ t ∈ txs.filter (fun t =>
      t.name == name && decide (t.type = TransactionType.buy)),
      0 < t.quantity :=
    fun t ht => hq t (List.mem_of_mem_filter ht)
  have hiff := sum_qty_pos_iff _ hpos
  have hdet : (detailSummary name
      (txs.filter (fun t => t.name == name))).avgBuyPrice =
      (toGrouped txs e).avgBuyPrice := by
    rw [detailSummary_avgBuyPrice, toGrouped_avgBuyPrice, hbq', hbc',
      ← filter_name_and]
  refine ⟨?_, ?_, hdet⟩
  · rw [toGrouped_avgBuyPrice, hbq']
    by_cases hne : txs.filter (fun t =>
        t.name == name && decide (t.type = TransactionType.buy)) = []
    · rw [hne]
      simp
    · have := hiff.mpr hne
      simp [this, hne]
  · intro hne
    have := hiff.mpr hne
    rw [toGrouped_avgBuyPrice, hbq', hbc', if_pos this]

/-- C3: for every transaction list and asset name in it, the asset's
net quantity equals the total quantity bought minus the total quantity
sold, and this value is the same for every permutation of the input
list (under any date-parsing oracle); the detail view computes the same
net quantity.  -/
theorem claim_netQuantity (dp : String → Option Int) (txs : List Tx)
    (name : String) (e : Entry) (h : assetEntry dp txs name = some e) :
    e.netQty =
      ((txs.filter (fun t =>
        t.name == name && decide (t.type = TransactionType.buy))).map
        Tx.quantity).sum -
      ((txs.filter (fun t =>
        t.name == name && decide (t.type = TransactionType.sell))).map
        Tx.quantity).sum ∧
    (detailSummary name (txs.filter (fun t => t.name == name))).netQuantity =
      e.netQty ∧
    ∀ (dp' : String → Option Int) (txs' : List Tx) (e' : Entry),
      List.Perm txs txs' → assetEntry dp' txs' name = some e' →
      e'.netQty = e.netQty := by
  rw [assetEntry_eq_groupFold] at h
  obtain ⟨hnet, _, _⟩ := groupFold_entry_fields dp _ e h
  have hsplit : e.netQty =
      ((txs.filter (fun t =>
        t.name == name && decide (t.type = TransactionType.buy))).map
        Tx.quantity).sum -
      ((txs.filter (fun t =>
        t.name == name && decide (t.type = TransactionType.sell))).map
        Tx.quantity).sum := by
    rw [hnet, map_signedQty_sum_split, ← filter_name_and, ← filter_name_and]
  refine ⟨hsplit, ?_, ?_⟩
  · rw [detailSummary_netQuantity, hnet]
  · intro dp' txs' e' hperm h'
    rw [assetEntry_eq_groupFold] at h'
    obtain ⟨hnet', _, _⟩ := groupFold_entry_fields dp' _ e' h'
    rw [hnet', hnet]
    exact List.Perm.sum_eq (List.Perm.map signedQty
      (List.Perm.filter (fun t => t.name == name) hperm.symm))

/-- C1 (amended): in the portfolio aggregator, the per-asset realized
profit (`profitValue`) is present exactly when the average buy price is
defined and positive and at least one sell transaction exists for the
asset, in which case it equals the sum over the asset's sell
transactions of `(sellPrice - averageBuyPrice) * sellQuantity`; with no
sells it is absent.  The asset detail view deviates from the claim:
its realized-profit figure `totalProfit` is a plain number with no
absent state, and it is `0` — not an absent value — whenever no sell
transaction exists. -/
theorem claim_realizedProfit (dp : String → Option Int) (txs : List Tx)
    (name : String) (e : Entry) (hq : ∀ tx ∈ txs, 0 < tx.quantity)
    (h : assetEntry dp txs name = some e) :
    (txs.filter (fun t =>
        t.name == name && decide (t.type = TransactionType.sell)) = [] →
      (toGrouped txs e).profitValue = none) ∧
    (∀ v : ℚ, (toGrouped txs e).profitValue = some v ↔
      ∃ avg : ℚ, (toGrouped txs e).avgBuyPrice = some avg ∧ 0 < avg ∧
        txs.filter (fun t =>
          t.name == name && decide (t.type = TransactionType.sell)) ≠ [] ∧
        v = ((txs.filter (fun t =>
            t.name == name && decide (t.type = TransactionType.sell))).map
          (fun t => (t.pricePerCoin - avg) * t.quantity)).sum) ∧
    (∀ l : List Tx,
      l.filter (fun t => decide (t.type = TransactionType.sell)) = [] →
      (detailSummary name l).totalProfit = 0) := by
  have hname := assetEntry_name dp txs name e h
  have hchar := toGrouped_profitValue txs e
  rw [hname] at hchar
  have hpos : ∀ t ∈ txs.filter (fun t =>
      t.name == name && decide (t.type = TransactionType.sell)),
      0 < t.quantity :=
    fun t ht => hq t (List.mem_of_mem_filter ht)
  have hiff := sum_qty_pos_iff _ hpos
  refine ⟨?_, ?_, ?_⟩
  · intro hnil
    rw [hchar, hnil]
    cases havg : (toGrouped txs e).avgBuyPrice with
    | none => rfl
    | some avg => simp
  · intro v
    rw [hchar]
    cases havg : (toGrouped txs e).avgBuyPrice with
    | none => simp
    | some avg =>
      dsimp only
      by_cases hc : 0 < avg ∧
          0 < ((txs.filter (fun t =>
            t.name == name && decide (t.type = TransactionType.sell))).map
            Tx.quantity).sum
      · rw [if_pos hc]
        constructor
        · intro hv
          exact ⟨avg, rfl, hc.1, hiff.mp hc.2,
            (Option.some.injEq _ _).mp hv.symm⟩
        · rintro ⟨avg', havg', hpos', _, hv⟩
          have heq : avg = avg' := by simpa using havg'
          subst heq
          rw [hv]
      · rw [if_neg hc]
        constructor
        · intro hv; cases hv
        · rintro ⟨avg', havg', hpos', hne, hv⟩
          have heq : avg = avg' := by simpa using havg'
          subst heq
          exact absurd ⟨hpos', hiff.mpr hne⟩ hc
  · intro l hnil
    rw [detailSummary_totalProfit, hnil]
    cases havg : (detailSummary name l).avgBuyPrice with
    | none => rfl
    | some avg => simp

/-- C1 counterexample: on the asset detail view, a list with a single
buy and no sells yields a realized-profit figure that is the number `0`
(with the average buy price defined and positive), not an absent value,
contradicting the claim that the figure is undefined whenever no sell
transaction exists. -/
theorem claim_realizedProfit_cx :
    (detailSummary "BTC"
      [⟨1, "BTC", 1, 10, TransactionType.buy, none, none⟩]).totalProfit = 0 ∧
    ([(⟨1, "BTC", 1, 10, TransactionType.buy, none, none⟩ : Tx)]).filter
      (fun t => decide (t.type = TransactionType.sell)) = [] ∧
    (detailSummary "BTC"
      [⟨1, "BTC", 1, 10, TransactionType.buy, none, none⟩]).avgBuyPrice =
      some 10 := by
  refine ⟨?_, by decide, ?_⟩
  · rw [detailSummary_totalProfit]
    cases havg : (detailSummary "BTC"
        [⟨1, "BTC", 1, 10, TransactionType.buy, none, none⟩]).avgBuyPrice with
    | none => rfl
    | some avg => simp
  · rw [detailSummary_avgBuyPrice]
    norm_num

/-- Witness for C1 at a one-buy transaction list: the aggregator's
profit figure is absent. -/
theorem claim_realizedProfit_witness :
    (toGrouped [(⟨1, "X", 1, 7, TransactionType.buy, none, none⟩ : Tx)]
      (initEntry ⟨1, "X", 1, 7, TransactionType.buy, none, none⟩)).profitValue =
      none :=
  (claim_realizedProfit (fun _ => none)
    [⟨1, "X", 1, 7, TransactionType.buy, none, none⟩] "X"
    (initEntry ⟨1, "X", 1, 7, TransactionType.buy, none, none⟩)
    (by decide) rfl).1 (by decide)

/-- Witness for C2 at a one-buy transaction list. -/
theorem claim_avgBuyPrice_witness :
    (detailSummary "X"
      (([(⟨1, "X", 1, 7, TransactionType.buy, none, none⟩ : Tx)]).filter
        (fun t => t.name == "X"))).avgBuyPrice =
      (toGrouped [(⟨1, "X", 1, 7, TransactionType.buy, none, none⟩ : Tx)]
        (initEntry ⟨1, "X", 1, 7, TransactionType.buy, none, none⟩)).avgBuyPrice :=
  (claim_avgBuyPrice (fun _ => none)
    [⟨1, "X", 1, 7, TransactionType.buy, none, none⟩] "X"
    (initEntry ⟨1, "X", 1, 7, TransactionType.buy, none, none⟩)
    (by decide) rfl).2.2

/-- Witness for C3 at a one-buy transaction list. -/
theorem claim_netQuantity_witness :
    (initEntry (⟨1, "X", 1, 7, TransactionType.buy, none, none⟩ : Tx)).netQty =
      ((([(⟨1, "X", 1, 7, TransactionType.buy, none, none⟩ : Tx)]).filter
        (fun t =>
          t.name == "X" && decide (t.type = TransactionType.buy))).map
        Tx.quantity).sum -
      ((([(⟨1, "X", 1, 7, TransactionType.buy, none, none⟩ : Tx)]).filter
        (fun t =>
          t.name == "X" && decide (t.type = TransactionType.sell))).map
        Tx.quantity).sum :=
  (claim_netQuantity (fun _ => none)
    [⟨1, "X", 1, 7, TransactionType.buy, none, none⟩] "X"
    (initEntry ⟨1, "X", 1, 7, TransactionType.buy, none, none⟩) rfl).1

/-- C5 (amended): the assets-page roll-up computes the claimed four
quantities — totalProfit as the plain sum of the per-asset realized
profits with an absent value counted as 0, the USDT equivalent as the
2000 initial capital plus that total, holdings as the sum of the
per-asset values each floored at zero before summing, and the remaining
capital as their difference.  The dashboard roll-up (the claim's other
cited source) deviates: its totalProfit floors each asset's profit at
zero before summing (the negative parts go to totalLoss, the plain sum
to totalProfitNet), it computes no USDT equivalent, and its remaining
capital is the initial capital minus the floored cost-basis holdings,
with no profit term. -/
theorem claim_portfolioSummary (items : List GroupedPortfolio)
    (ditems : List DashPortfolio) :
    (portfolioSummary items).firstCapital = 2000 ∧
    (portfolioSummary items).totalProfit =
      (items.map (fun item => item.profitValue.getD 0)).sum ∧
    (portfolioSummary items).totalUsdt =
      2000 + (portfolioSummary items).totalProfit ∧
    (portfolioSummary items).remainUsdt =
      (portfolioSummary items).totalUsdt -
        (items.map (fun item => max item.holdingsValue 0)).sum ∧
    (dashSummary ditems).firstCapital = 2000 ∧
    (dashSummary ditems).totalProfit =
      (ditems.map (fun item => max (item.profitValue.getD 0) 0)).sum ∧
    (dashSummary ditems).totalLoss =
      (ditems.map (fun item => min (item.profitValue.getD 0) 0)).sum ∧
    (dashSummary ditems).totalProfitNet =
      (ditems.map (fun item => item.profitValue.getD 0)).sum ∧
    (dashSummary ditems).remainUsdt =
      2000 - (ditems.map (fun item => max item.currentCost 0)).sum := by
  have hhold : items.foldl
      (fun (sum : ℚ) item => sum + max item.holdingsValue 0) 0 =
      (items.map (fun item => max item.holdingsValue 0)).sum := by
    simp only [foldl_add_map
      (fun (item : GroupedPortfolio) => max item.holdingsValue 0), zero_add]
  have hdhold : ditems.foldl
      (fun (sum : ℚ) item => sum + max item.currentCost 0) 0 =
      (ditems.map (fun item => max item.currentCost 0)).sum := by
    simp only [foldl_add_map
      (fun (item : DashPortfolio) => max item.currentCost 0), zero_add]
  refine ⟨rfl, ?_, rfl, ?_, rfl, ?_, ?_, ?_, ?_⟩
  · show items.foldl
        (fun (sum : ℚ) item => sum + item.profitValue.getD 0) 0 = _
    simp only [foldl_add_map
      (fun (item : GroupedPortfolio) => item.profitValue.getD 0), zero_add]
  · show (portfolioSummary items).totalUsdt -
        items.foldl (fun (sum : ℚ) item => sum + max item.holdingsValue 0) 0 =
        _
    rw [hhold]
  · show ditems.foldl
        (fun (sum : ℚ) item => sum + max (item.profitValue.getD 0) 0) 0 = _
    simp only [foldl_add_map
      (fun (item : DashPortfolio) => max (item.profitValue.getD 0) 0),
      zero_add]
  · show ditems.foldl
        (fun (sum : ℚ) item => sum + min (item.profitValue.getD 0) 0) 0 = _
    simp only [foldl_add_map
      (fun (item : DashPortfolio) => min (item.profitValue.getD 0) 0),
      zero_add]
  · show ditems.foldl
        (fun (sum : ℚ) item => sum + item.profitValue.getD 0) 0 = _
    simp only [foldl_add_map
      (fun (item : DashPortfolio) => item.profitValue.getD 0), zero_add]
  · show (2000 : ℚ) -
        ditems.foldl (fun (sum : ℚ) item => sum + max item.currentCost 0) 0 =
        _
    rw [hdhold]

/-- C5 counterexample: on the dashboard roll-up, the single aggregate
with cost-basis holdings 0 and realized profit 10 (reachable from buy
1 @ 100 then sell 1 @ 110) yields remaining capital 2000, while the
claim's formulas give initialCapital + totalProfit − flooredHoldings =
2010; and the single aggregate with realized profit −5 yields a
totalProfit of 0 where the claim's plain undefined-as-0 sum is −5. -/
theorem claim_portfolioSummary_cx :
    (dashSummary [⟨"BTC", 0, some 10⟩]).remainUsdt = 2000 ∧
    2000 +
        (([(⟨"BTC", 0, some 10⟩ : DashPortfolio)]).map
          (fun item => item.profitValue.getD 0)).sum -
        (([(⟨"BTC", 0, some 10⟩ : DashPortfolio)]).map
          (fun item => max item.currentCost 0)).sum = 2010 ∧
    (2000 : ℚ) ≠ 2010 ∧
    (dashSummary [⟨"X", 0, some (-5)⟩]).totalProfit = 0 ∧
    (([(⟨"X", 0, some (-5)⟩ : DashPortfolio)]).map
      (fun item => item.profitValue.getD 0)).sum = -5 ∧
    (0 : ℚ) ≠ -5 := by
  refine ⟨?_, by norm_num, by norm_num, ?_, by norm_num, by norm_num⟩
  · show (2000 : ℚ) -
        ([(⟨"BTC", 0, some 10⟩ : DashPortfolio)].foldl
          (fun sum item => sum + max item.currentCost 0) 0) = 2000
    norm_num
  · show ([(⟨"X", 0, some (-5)⟩ : DashPortfolio)].foldl
        (fun sum item => sum + max (item.profitValue.getD 0) 0) 0) = 0
    norm_num

/-- C9: the what-if preview profit of the close dialog agrees with the
P&L calculator applied to the trade with its close price set to the
provisional value, for every trade and provisional price. -/
theorem claim_tempProfit (t : TradingHistory) (cp : ℚ) :
    tempProfit t cp = calcProfitLoss { t with closePrice := some cp } := by
  cases ht : t.type <;> simp [tempProfit, calcProfitLoss, ht]

/-! ### JsNum helper lemmas for C4 -/

theorem jsSub_fin_fin (a b : ℚ) :
    jsSub (JsNum.fin a) (JsNum.fin b) = JsNum.fin (a - b) := rfl

theorem jsMul_fin_fin (a b : ℚ) :
    jsMul (JsNum.fin a) (JsNum.fin b) = JsNum.fin (a * b) := rfl

theorem jsMul_fin_posInf (a : ℚ) :
    jsMul (JsNum.fin a) JsNum.posInf =
      (if a = 0 then JsNum.nan
       else if 0 < a then JsNum.posInf else JsNum.negInf) := rfl

theorem jsMul_fin_negInf (a : ℚ) :
    jsMul (JsNum.fin a) JsNum.negInf =
      (if a = 0 then JsNum.nan
       else if 0 < a then JsNum.negInf else JsNum.posInf) := rfl

theorem jsMul_fin_nan (a : ℚ) :
    jsMul (JsNum.fin a) JsNum.nan = JsNum.nan := rfl

theorem jsDiv_fin_fin_def (a b : ℚ) :
    jsDiv (JsNum.fin a) (JsNum.fin b) =
      (if b = 0 then
        (if a = 0 then JsNum.nan
         else if 0 < a then JsNum.posInf else JsNum.negInf)
       else JsNum.fin (a / b)) := rfl

theorem jsDiv_fin_zero_not_fin (a q : ℚ) :
    jsDiv (JsNum.fin a) (JsNum.fin 0) ≠ JsNum.fin q := by
  rw [jsDiv_fin_fin_def, if_pos rfl]
  split_ifs <;> simp

theorem jsMul_fin_not_fin (x : ℚ) (y : JsNum)
    (hy : ∀ q : ℚ, y ≠ JsNum.fin q) (q : ℚ) :
    jsMul (JsNum.fin x) y ≠ JsNum.fin q := by
  cases y with
  | fin b => exact absurd rfl (hy b)
  | posInf => rw [jsMul_fin_posInf]; split_ifs <;> simp
  | negInf => rw [jsMul_fin_negInf]; split_ifs <;> simp
  | nan => rw [jsMul_fin_nan]; simp

theorem jsDiv_fin_fin (a b : ℚ) (hb : b ≠ 0) :
    jsDiv (JsNum.fin a) (JsNum.fin b) = JsNum.fin (a / b) := by
  rw [jsDiv_fin_fin_def, if_neg hb]

/-- C4: the P&L calculator returns the signed profit
`volume * level * priceChangeRatio` (ratio oriented by the trade
direction) whenever the close price is present and the open price is
nonzero; it returns an absent value — never a number, in particular
never zero or an infinity or NaN — when the close price is null or the
open price is zero. -/
theorem claim_calcProfitLoss (t : TradingHistory) :
    (t.closePrice = none → calcProfitLoss t = none) ∧
    (t.openPrice = 0 → calcProfitLoss t = none) ∧
    (∀ cp : ℚ, t.closePrice = some cp → t.openPrice ≠ 0 →
      calcProfitLoss t =
        some (t.volume * t.level *
          (match t.type with
           | TradeType.long => (cp - t.openPrice) / t.openPrice
           | TradeType.short => (t.openPrice - cp) / t.openPrice))) := by
  refine ⟨?_, ?_, ?_⟩
  · intro hcp
    unfold calcProfitLoss
    rw [hcp]
  · intro hop
    cases hcp : t.closePrice with
    | none => unfold calcProfitLoss; rw [hcp]
    | some cp =>
      unfold calcProfitLoss
      rw [hcp, hop]
      have hratio : ∀ q : ℚ,
          (match t.type with
           | TradeType.short =>
             jsDiv (jsSub (JsNum.fin 0) (JsNum.fin cp)) (JsNum.fin 0)
           | TradeType.long =>
             jsDiv (jsSub (JsNum.fin cp) (JsNum.fin 0)) (JsNum.fin 0)) ≠
            JsNum.fin q := by
        intro q
        cases htt : t.type <;>
          · dsimp only
            exact jsDiv_fin_zero_not_fin _ q
      have hprof := jsMul_fin_not_fin (t.volume * t.level) _ hratio
      dsimp only
      cases hm : jsMul (jsMul (JsNum.fin t.volume) (JsNum.fin t.level))
          (match t.type with
           | TradeType.short =>
             jsDiv (jsSub (JsNum.fin 0) (JsNum.fin cp)) (JsNum.fin 0)
           | TradeType.long =>
             jsDiv (jsSub (JsNum.fin cp) (JsNum.fin 0)) (JsNum.fin 0)) with
      | fin q =>
        have : jsMul (jsMul (JsNum.fin t.volume) (JsNum.fin t.level))
            (match t.type with
             | TradeType.short =>
               jsDiv (jsSub (JsNum.fin 0) (JsNum.fin cp)) (JsNum.fin 0)
             | TradeType.long =>
               jsDiv (jsSub (JsNum.fin cp) (JsNum.fin 0)) (JsNum.fin 0)) =
            jsMul (JsNum.fin (t.volume * t.level))
              (match t.type with
               | TradeType.short =>
                 jsDiv (jsSub (JsNum.fin 0) (JsNum.fin cp)) (JsNum.fin 0)
               | TradeType.long =>
                 jsDiv (jsSub (JsNum.fin cp) (JsNum.fin 0)) (JsNum.fin 0)) :=
          rfl
        rw [this] at hm
        exact absurd hm (hprof q)
      | posInf => rfl
      | negInf => rfl
      | nan => rfl
  · intro cp hcp hop
    unfold calcProfitLoss
    rw [hcp]
    cases htt : t.type with
    | long =>
      dsimp only
      simp only [jsSub_fin_fin]
      rw [jsDiv_fin_fin (cp - t.openPrice) t.openPrice hop]
      simp only [jsMul_fin_fin]
    | short =>
      dsimp only
      simp only [jsSub_fin_fin]
      rw [jsDiv_fin_fin (t.openPrice - cp) t.openPrice hop]
      simp only [jsMul_fin_fin]

/-- Witness for C4: the spec's long-trade scenario (open 100, close
110, level 5, volume 2). -/
theorem claim_calcProfitLoss_witness :
    calcProfitLoss
      ⟨1, "X", "", none, 100, some 110, none, none, none, TradeType.long, 5, 2,
        none, none, []⟩ =
      some (2 * 5 * ((110 - 100) / 100)) :=
  (claim_calcProfitLoss
    ⟨1, "X", "", none, 100, some 110, none, none, none, TradeType.long, 5, 2,
      none, none, []⟩).2.2 110 rfl (by decide)

/-- C6: when two transactions of one asset have dates that parse to the
same instant, the one with the greater id is selected as the latest
transaction — and supplies the reference price — in both input orders. -/
theorem claim_latest_tiebreak (dp : String → Option Int) (a b : Tx) (t : Int)
    (hname : b.name = a.name) (ha : dp (a.date.getD "") = some t)
    (hb : dp (b.date.getD "") = some t) (hid : b.id < a.id) :
    (assetEntry dp [a, b] a.name).map (fun e => e.latestTransaction) =
      some a ∧
    (assetEntry dp [b, a] a.name).map (fun e => e.latestTransaction) =
      some a ∧
    (assetEntry dp [a, b] a.name).map
      (fun e => (toGrouped [a, b] e).currentPrice) = some a.pricePerCoin ∧
    (assetEntry dp [b, a] a.name).map
      (fun e => (toGrouped [b, a] e).currentPrice) = some a.pricePerCoin := by
  have h1 : assetEntry dp [a, b] a.name = some (applyTx dp b (initEntry a)) :=
    assetEntry_pair dp a b hname
  have h2 : assetEntry dp [b, a] a.name = some (applyTx dp a (initEntry b)) := by
    rw [← hname]
    exact assetEntry_pair dp b a hname.symm
  have hl1 : (applyTx dp b (initEntry a)).latestTransaction = a := by
    rw [applyTx_latest, initEntry_latest, ha, hb, replaceLatest_some_eq]
    have hd : decide (a.id < b.id) = false := by
      simp [not_lt.mpr (le_of_lt hid)]
    rw [hd]
    rfl
  have hl2 : (applyTx dp a (initEntry b)).latestTransaction = a := by
    rw [applyTx_latest, initEntry_latest, hb, ha, replaceLatest_some_eq]
    have hd : decide (b.id < a.id) = true := by simp [hid]
    rw [hd]
    rfl
  refine ⟨?_, ?_, ?_, ?_⟩ <;>
    simp [h1, h2, hl1, hl2, toGrouped_currentPrice]

/-- Witness for C6 at two concrete same-date transactions. -/
theorem claim_latest_tiebreak_witness :
    (assetEntry (fun _ => some 0)
      [⟨2, "X", 1, 5, TransactionType.buy, some "d", none⟩,
       ⟨1, "X", 1, 7, TransactionType.buy, some "d", none⟩] "X").map
      (fun e => e.latestTransaction) =
      some ⟨2, "X", 1, 5, TransactionType.buy, some "d", none⟩ ∧
    (assetEntry (fun _ => some 0)
      [⟨1, "X", 1, 7, TransactionType.buy, some "d", none⟩,
       ⟨2, "X", 1, 5, TransactionType.buy, some "d", none⟩] "X").map
      (fun e => e.latestTransaction) =
      some ⟨2, "X", 1, 5, TransactionType.buy, some "d", none⟩ :=
  ⟨(claim_latest_tiebreak (fun _ => some 0)
      ⟨2, "X", 1, 5, TransactionType.buy, some "d", none⟩
      ⟨1, "X", 1, 7, TransactionType.buy, some "d", none⟩ 0 rfl rfl rfl
      (by decide)).1,
   (claim_latest_tiebreak (fun _ => some 0)
      ⟨2, "X", 1, 5, TransactionType.buy, some "d", none⟩
      ⟨1, "X", 1, 7, TransactionType.buy, some "d", none⟩ 0 rfl rfl rfl
      (by decide)).2.1⟩

/-- C7 (amended): when the tracked latest transaction's date fails to
parse, the incoming transaction replaces it unconditionally; hence
among two same-asset transactions that both have unparseable dates, the
one appearing later in the input list is selected as latest, regardless
of the two ids — the specified higher-id fallback is not what the code
does. -/
theorem claim_latest_unparseable (dp : String → Option Int) (a b : Tx)
    (hname : b.name = a.name) (ha : dp (a.date.getD "") = none)
    (hb : dp (b.date.getD "") = none) :
    (assetEntry dp [a, b] a.name).map (fun e => e.latestTransaction) =
      some b ∧
    (assetEntry dp [b, a] a.name).map (fun e => e.latestTransaction) =
      some a := by
  have h1 : assetEntry dp [a, b] a.name = some (applyTx dp b (initEntry a)) :=
    assetEntry_pair dp a b hname
  have h2 : assetEntry dp [b, a] a.name = some (applyTx dp a (initEntry b)) := by
    rw [← hname]
    exact assetEntry_pair dp b a hname.symm
  have hl1 : (applyTx dp b (initEntry a)).latestTransaction = b := by
    rw [applyTx_latest, initEntry_latest, ha, replaceLatest_none]
    rfl
  have hl2 : (applyTx dp a (initEntry b)).latestTransaction = a := by
    rw [applyTx_latest, initEntry_latest, hb, replaceLatest_none]
    rfl
  exact ⟨by simp [h1, hl1], by simp [h2, hl2]⟩

/-- C7 counterexample: two transactions of one asset, both with
unparseable dates, the higher id (2) listed first: the transaction
selected as latest is the one with the lower id 1, contradicting the
claim that the higher id wins regardless of input order. -/
theorem claim_latest_unparseable_cx :
    (assetEntry (fun _ => none)
      [⟨2, "X", 1, 5, TransactionType.buy, none, none⟩,
       ⟨1, "X", 1, 7, TransactionType.buy, none, none⟩] "X").map
      (fun e => e.latestTransaction.id) = some 1 ∧ (1 : Int) < 2 :=
  ⟨by decide, by decide⟩

/-- Witness for C7's amended claim at two concrete transactions with
unparseable dates. -/
theorem claim_latest_unparseable_witness :
    (assetEntry (fun _ => none)
      [⟨2, "X", 1, 5, TransactionType.buy, none, none⟩,
       ⟨1, "X", 1, 7, TransactionType.buy, none, none⟩] "X").map
      (fun e => e.latestTransaction) =
      some ⟨1, "X", 1, 7, TransactionType.buy, none, none⟩ :=
  (claim_latest_unparseable (fun _ => none)
    ⟨2, "X", 1, 5, TransactionType.buy, none, none⟩
    ⟨1, "X", 1, 7, TransactionType.buy, none, none⟩ rfl rfl rfl).1

/-- C8 (amended): when the stored reference-image string fails to parse
as JSON, the row mappers do not fail the row read and do not in general
return the empty list: they fall back to splitting the string on commas,
trimming each piece and dropping empty pieces (the result is empty only
when no nonempty piece exists); the mapping is total — it always yields
a list of strings — for every parse oracle and element stringification. -/
theorem claim_parse_fallback (jparse : String → Option JsVal)
    (toStr : JsVal → String) (s : String) (hs : s ≠ "")
    (h : jparse s = none) :
    parseReferenceImages jparse toStr (JsVal.vstr s) = commaSplitTrim s ∧
    parseImageReferences jparse toStr (JsVal.vstr s) = commaSplitTrim s := by
  have hb : jsFalsy (JsVal.vstr s) = false := by
    simp [jsFalsy, hs]
  constructor
  · unfold parseReferenceImages
    rw [hb, if_neg (by simp)]
    dsimp only
    rw [h]
  · unfold parseImageReferences
    rw [hb, if_neg (by simp)]
    dsimp only
    rw [h]

/-- C8 counterexample: the string `"a,b"` is not valid JSON (the parse
oracle reports failure on it), yet the mapper returns `["a", "b"]` —
the comma-split fallback — not the empty list the claim requires. -/
theorem claim_parse_fallback_cx :
    parseReferenceImages (fun _ => none) (fun _ => "") (JsVal.vstr "a,b") =
      ["a", "b"] ∧
    (fun _ : String => (none : Option JsVal)) "a,b" = none ∧
    (["a", "b"] : List String) ≠ [] :=
  ⟨by decide, rfl, by decide⟩

/-- Witness for C8's amended claim at the concrete string `"a,b"`. -/
theorem claim_parse_fallback_witness :
    parseReferenceImages (fun _ => none) (fun _ => "") (JsVal.vstr "a,b") =
      commaSplitTrim "a,b" :=
  (claim_parse_fallback (fun _ => none) (fun _ => "") "a,b" (by decide)
    rfl).1

/-- C10: every entry of the dashboard holdings list (which drives the
allocation pie chart) has strictly positive net quantity, and that
quantity is the full aggregate of the asset's buys minus its sells over
the whole input list, for any mix of buy and sell transactions. -/
theorem claim_holdings_positive (txs : List Tx) (h : Holding)
    (hh : h ∈ holdings txs) :
    0 < h.quantity ∧
    h.quantity =
      ((txs.filter (fun t =>
        t.name == h.name && decide (t.type = TransactionType.buy))).map
        Tx.quantity).sum -
      ((txs.filter (fun t =>
        t.name == h.name && decide (t.type = TransactionType.sell))).map
        Tx.quantity).sum := by
  unfold holdings at hh
  obtain ⟨p, hp, hfp⟩ := List.mem_map.mp hh
  have hsnd : p.2 ∈ (runGroups HEntry.name
      (fun tx => applyHoldingTx tx (emptyHEntry tx.name)) applyHoldingTx
      txs).filter (fun e => decide (0 < e.quantity)) := by
    have h2 := List.mem_map_of_mem Prod.snd hp
    rwa [List.enum_map_snd] at h2
  obtain ⟨hmem, hposb⟩ := List.mem_filter.mp hsnd
  have hpos : 0 < p.2.quantity := by simpa using hposb
  have hinitn : ∀ tx : Tx,
      HEntry.name (applyHoldingTx tx (emptyHEntry tx.name)) = tx.name := by
    intro tx
    rw [applyHoldingTx_name]
    rfl
  have hgf := mem_runGroups_groupFold HEntry.name
    (fun tx => applyHoldingTx tx (emptyHEntry tx.name)) applyHoldingTx hinitn
    (fun tx e => applyHoldingTx_name tx e) txs p.2 hmem
  have hqty := groupFoldH_quantity _ p.2 hgf
  have hhq : h.quantity = p.2.quantity := by rw [← hfp]
  have hhn : h.name = p.2.name := by rw [← hfp]
  refine ⟨hhq ▸ hpos, ?_⟩
  rw [hhq, hhn, hqty, map_signedQty_sum_split, ← filter_name_and,
    ← filter_name_and]

/-- Witness for C10 at a single one-unit buy. -/
theorem claim_holdings_positive_witness :
    0 < (⟨1, "BTC", 1, 1⟩ : Holding).quantity ∧
    (⟨1, "BTC", 1, 1⟩ : Holding).quantity =
      ((([(⟨1, "BTC", 1, 1, TransactionType.buy, none, none⟩ : Tx)]).filter
        (fun t => t.name == (⟨1, "BTC", 1, 1⟩ : Holding).name &&
          decide (t.type = TransactionType.buy))).map Tx.quantity).sum -
      ((([(⟨1, "BTC", 1, 1, TransactionType.buy, none, none⟩ : Tx)]).filter
        (fun t => t.name == (⟨1, "BTC", 1, 1⟩ : Holding).name &&
          decide (t.type = TransactionType.sell))).map Tx.quantity).sum :=
  claim_holdings_positive
    [⟨1, "BTC", 1, 1, TransactionType.buy, none, none⟩] ⟨1, "BTC", 1, 1⟩
    (by simp [holdings, runGroups, stepG, List.find?, applyHoldingTx,
      emptyHEntry, List.enum, List.enumFrom, List.filter])

end Investing
